import Mathlib

/-!
Verification of the governance pallet in `src/src/governance.rs`.

The pallet is embedded shallowly: the two `HashMap` fields become
association lists (the source never relies on iteration order), the `u32`
counters become `Nat` (the source uses checked arithmetic, which traps
rather than wraps, so no modular behaviour is observable), and the
`Result<_, &'static str>` return types become `Except String _` carrying
the exact error strings of the source.
-/

set_option autoImplicit false
set_option linter.unusedSectionVars false

namespace Governance

/-- Status of a proposal, mirroring `enum ProposalStatus` in the source:
`Active`, `Approved`, or `Rejected`. -/
inductive ProposalStatus where
  | Active
  | Approved
  | Rejected
deriving DecidableEq

/-- A governance proposal, mirroring `struct Proposal<T>` in the source.
The account-id type of the runtime configuration is the parameter `A`. -/
structure Proposal (A : Type) where
  description : String
  yes_votes : Nat
  no_votes : Nat
  status : ProposalStatus
  creator : A
deriving DecidableEq

/-- First-match lookup in an association list; models `HashMap::get`. -/
def mapLookup {K V : Type} [DecidableEq K] : List (K × V) → K → Option V
  | [], _ => none
  | kv :: rest, k => if k = kv.1 then some kv.2 else mapLookup rest k

/-- Insert-or-replace in an association list; models `HashMap::insert`.
Any previous binding of the key is dropped, so keys stay unique. -/
def mapInsert {K V : Type} [DecidableEq K] (m : List (K × V)) (k : K) (v : V) :
    List (K × V) :=
  (k, v) :: m.filter (fun kv => kv.1 ≠ k)

/-- The governance pallet state, mirroring `struct GovernancePallet<T>`:
the proposals map, the votes map keyed by `(voter, proposal_id)`, and the
id counter. -/
structure GovernancePallet (A : Type) where
  proposals : List (Nat × Proposal A)
  votes : List ((A × Nat) × Bool)
  next_proposal_id : Nat

namespace GovernancePallet

variable {A : Type} [DecidableEq A]

/-- `GovernancePallet::new`: empty maps, id counter at 0. -/
def new (A : Type) : GovernancePallet A :=
  { proposals := [], votes := [], next_proposal_id := 0 }

/-- `create_proposal`: allocates the current `next_proposal_id`, bumps the
counter, inserts a fresh `Active` proposal with zero tallies, and returns
`Ok(proposal_id)`. -/
def create_proposal (s : GovernancePallet A) (creator : A) (description : String) :
    GovernancePallet A × Except String Nat :=
  let proposal_id := s.next_proposal_id
  let proposal : Proposal A :=
    { description := description
      yes_votes := 0
      no_votes := 0
      status := ProposalStatus.Active
      creator := creator }
  ({ s with
      next_proposal_id := proposal_id + 1
      proposals := mapInsert s.proposals proposal_id proposal },
   Except.ok proposal_id)

/-- `vote`: existence check, then active-status check, then duplicate-vote
check; on success inserts the vote record and bumps the matching tally. -/
def vote (s : GovernancePallet A) (voter : A) (proposal_id : Nat)
    (vote_type : Bool) : GovernancePallet A × Except String Unit :=
  match mapLookup s.proposals proposal_id with
  | some proposal =>
    if proposal.status ≠ ProposalStatus.Active then
      (s, Except.error "Proposal is not active")
    else if (mapLookup s.votes (voter, proposal_id)).isSome then
      (s, Except.error "Voter has already voted")
    else
      let proposal' :=
        if vote_type then { proposal with yes_votes := proposal.yes_votes + 1 }
        else { proposal with no_votes := proposal.no_votes + 1 }
      ({ s with
          votes := mapInsert s.votes (voter, proposal_id) vote_type
          proposals := mapInsert s.proposals proposal_id proposal' },
       Except.ok ())
  | none => (s, Except.error "Proposal does not exist")

/-- `get_proposal`: plain map lookup, `None` when absent. -/
def get_proposal (s : GovernancePallet A) (proposal_id : Nat) :
    Option (Proposal A) :=
  mapLookup s.proposals proposal_id

/-- `finalize_proposal`: existence check, then active-status check; then
sets the status to `Approved` when `yes_votes > no_votes` and to
`Rejected` otherwise, returning the new status. -/
def finalize_proposal (s : GovernancePallet A) (proposal_id : Nat) :
    GovernancePallet A × Except String ProposalStatus :=
  match mapLookup s.proposals proposal_id with
  | some proposal =>
    if proposal.status ≠ ProposalStatus.Active then
      (s, Except.error "Proposal is not active")
    else
      let newStatus :=
        if proposal.yes_votes > proposal.no_votes then ProposalStatus.Approved
        else ProposalStatus.Rejected
      ({ s with
          proposals :=
            mapInsert s.proposals proposal_id { proposal with status := newStatus } },
       Except.ok newStatus)
  | none => (s, Except.error "Proposal does not exist")

/-- `get_proposal_details`: returns the description and creator, or the
not-found error when absent. -/
def get_proposal_details (s : GovernancePallet A) (proposal_id : Nat) :
    Except String (String × A) :=
  match mapLookup s.proposals proposal_id with
  | some proposal => Except.ok (proposal.description, proposal.creator)
  | none => Except.error "Proposal does not exist"

end GovernancePallet

/-- An invocation of one of the three mutating operations of the pallet. -/
inductive Op (A : Type) where
  | create (creator : A) (description : String)
  | castVote (voter : A) (proposal_id : Nat) (vote_type : Bool)
  | finalize (proposal_id : Nat)

variable {A : Type} [DecidableEq A]

/-- State after one operation (the returned value is discarded). -/
def applyOp (s : GovernancePallet A) : Op A → GovernancePallet A
  | Op.create c d => (s.create_proposal c d).1
  | Op.castVote v pid b => (s.vote v pid b).1
  | Op.finalize pid => (s.finalize_proposal pid).1

/-- State after a sequence of operations. -/
def run (s : GovernancePallet A) : List (Op A) → GovernancePallet A
  | [] => s
  | op :: ops => run (applyOp s op) ops

/-- A state is reachable when some operation sequence produces it from
the freshly constructed pallet. -/
def Reachable (s : GovernancePallet A) : Prop :=
  ∃ ops : List (Op A), s = run (GovernancePallet.new A) ops

/-- Number of `create_proposal` calls in an operation sequence. -/
def numCreates (ops : List (Op A)) : Nat :=
  ops.countP fun op =>
    match op with
    | Op.create _ _ => true
    | _ => false

/-- The proposal ids returned by the `create_proposal` calls of a
sequence, in call order (ids of failing calls, were there any, would be
skipped). -/
def runCreateIds (s : GovernancePallet A) : List (Op A) → List Nat
  | [] => []
  | op :: ops =>
    let rest := runCreateIds (applyOp s op) ops
    match op with
    | Op.create c d =>
      match (s.create_proposal c d).2 with
      | Except.ok proposal_id => proposal_id :: rest
      | Except.error _ => rest
    | _ => rest

/-- Number of successful `vote` calls on proposal `pid` along an
operation sequence. -/
def runVoteOks (s : GovernancePallet A) (pid : Nat) : List (Op A) → Nat
  | [] => 0
  | op :: ops =>
    let rest := runVoteOks (applyOp s op) pid ops
    match op with
    | Op.castVote v pid' c =>
      match (s.vote v pid' c).2 with
      | Except.ok _ => (if pid' = pid then 1 else 0) + rest
      | Except.error _ => rest
    | _ => rest

/-- Number of vote records on proposal `pid` carrying the value `b`. -/
def countVotesFor {B : Type} (votes : List ((B × Nat) × Bool)) (pid : Nat)
    (b : Bool) : Nat :=
  votes.countP fun kv => kv.1.2 = pid ∧ kv.2 = b

/-- Number of vote records on proposal `pid`. -/
def countVotesOn {B : Type} (votes : List ((B × Nat) × Bool)) (pid : Nat) : Nat :=
  votes.countP fun kv => kv.1.2 = pid

/-- State invariant maintained by every operation: proposal ids sit
below the id counter, every vote record points below the id counter,
vote keys are duplicate-free, and each proposal's two tallies count its
vote records. -/
def Inv (s : GovernancePallet A) : Prop :=
  (∀ (pid : Nat) (p : Proposal A),
    mapLookup s.proposals pid = some p → pid < s.next_proposal_id) ∧
  (∀ kv ∈ s.votes, kv.1.2 < s.next_proposal_id) ∧
  (s.votes.map Prod.fst).Nodup ∧
  ∀ (pid : Nat) (p : Proposal A), mapLookup s.proposals pid = some p →
    p.yes_votes = countVotesFor s.votes pid true ∧
    p.no_votes = countVotesFor s.votes pid false

/-- Dropping the entries of one key leaves lookups of other keys alone. -/
theorem mapLookup_filterNe {K V : Type} [DecidableEq K] (m : List (K × V))
    (k k' : K) (h : k ≠ k') :
    mapLookup (m.filter fun kv => kv.1 ≠ k') k = mapLookup m k := by
  induction m with
  | nil => rfl
  | cons kv rest ih =>
    simp only [ne_eq, decide_not] at ih ⊢
    by_cases hk : kv.1 = k'
    · have hkk : ¬ k = kv.1 := fun hc => h (hc.trans hk)
      simp [List.filter_cons, hk, mapLookup, hkk, h, ih]
    · simp only [List.filter_cons]
      by_cases hkk : k = kv.1
      · simp [hk, mapLookup, hkk]
      · simp [hk, mapLookup, hkk, ih]

/-- Lookup after insert-or-replace: the inserted key maps to the new
value, every other key is untouched. -/
theorem mapLookup_mapInsert {K V : Type} [DecidableEq K] (m : List (K × V))
    (k k' : K) (v : V) :
    mapLookup (mapInsert m k' v) k = if k = k' then some v else mapLookup m k := by
  by_cases h : k = k'
  · subst h
    simp [mapInsert, mapLookup]
  · simp only [mapInsert, mapLookup, h, if_false]
    exact mapLookup_filterNe m k k' h

/-- A key is absent from an association list exactly when it heads no
entry. -/
theorem mapLookup_eq_none {K V : Type} [DecidableEq K] (m : List (K × V))
    (k : K) : mapLookup m k = none ↔ ∀ kv ∈ m, k ≠ kv.1 := by
  induction m with
  | nil => simp [mapLookup]
  | cons kv rest ih =>
    by_cases h : k = kv.1
    · simp [mapLookup, h]
    · simp [mapLookup, h, ih]

/-- Inserting a key that is absent is a plain `cons`. -/
theorem mapInsert_of_not_mem {K V : Type} [DecidableEq K] (m : List (K × V))
    (k : K) (v : V) (h : mapLookup m k = none) :
    mapInsert m k v = (k, v) :: m := by
  have h' := (mapLookup_eq_none m k).mp h
  unfold mapInsert
  congr 1
  apply List.filter_eq_self.mpr
  intro kv hkv
  simpa using fun hc : kv.1 = k => h' kv hkv hc.symm

/-- Insert-or-replace keeps the key list duplicate-free. -/
theorem mapInsert_nodup_keys {K V : Type} [DecidableEq K] (m : List (K × V))
    (k : K) (v : V) (h : (m.map Prod.fst).Nodup) :
    ((mapInsert m k v).map Prod.fst).Nodup := by
  unfold mapInsert
  simp only [List.map_cons, List.nodup_cons]
  constructor
  · intro hmem
    rcases List.mem_map.mp hmem with ⟨kv, hkv, hfst⟩
    have := List.of_mem_filter hkv
    simp only [decide_not, Bool.not_eq_true', decide_eq_false_iff_not] at this
    exact this hfst
  · exact h.sublist ((List.filter_sublist m).map Prod.fst)

section OperationEquations

variable (s : GovernancePallet A)

/-- `create_proposal` unfolded: bump the counter, insert the fresh
`Active` proposal, return its id. -/
theorem create_proposal_eq (c : A) (d : String) :
    s.create_proposal c d =
      ({ s with
          next_proposal_id := s.next_proposal_id + 1
          proposals := mapInsert s.proposals s.next_proposal_id
            { description := d
              yes_votes := 0
              no_votes := 0
              status := ProposalStatus.Active
              creator := c } },
       Except.ok s.next_proposal_id) := rfl

/-- `vote` on an unknown proposal id. -/
theorem vote_eq_notFound (v : A) (pid : Nat) (c : Bool)
    (hm : mapLookup s.proposals pid = none) :
    s.vote v pid c = (s, Except.error "Proposal does not exist") := by
  unfold GovernancePallet.vote
  rw [hm]

/-- `vote` on a proposal that is no longer active. -/
theorem vote_eq_notActive (v : A) (pid : Nat) (c : Bool) (p : Proposal A)
    (hm : mapLookup s.proposals pid = some p)
    (hs : p.status ≠ ProposalStatus.Active) :
    s.vote v pid c = (s, Except.error "Proposal is not active") := by
  unfold GovernancePallet.vote
  simp only [hm]
  rw [if_pos hs]

/-- `vote` when the voter already has a record for the proposal. -/
theorem vote_eq_alreadyVoted (v : A) (pid : Nat) (c : Bool) (p : Proposal A)
    (hm : mapLookup s.proposals pid = some p)
    (hs : p.status = ProposalStatus.Active)
    (hv : (mapLookup s.votes (v, pid)).isSome) :
    s.vote v pid c = (s, Except.error "Voter has already voted") := by
  unfold GovernancePallet.vote
  simp only [hm]
  rw [if_neg (by simp [hs]), if_pos hv]

/-- Successful `vote`: insert the record, bump the matching tally. -/
theorem vote_eq_ok (v : A) (pid : Nat) (c : Bool) (p : Proposal A)
    (hm : mapLookup s.proposals pid = some p)
    (hs : p.status = ProposalStatus.Active)
    (hv : mapLookup s.votes (v, pid) = none) :
    s.vote v pid c =
      ({ s with
          votes := mapInsert s.votes (v, pid) c
          proposals := mapInsert s.proposals pid
            (if c then { p with yes_votes := p.yes_votes + 1 }
             else { p with no_votes := p.no_votes + 1 }) },
       Except.ok ()) := by
  unfold GovernancePallet.vote
  simp only [hm, hv]
  rw [if_neg (by simp [hs])]
  simp

/-- `finalize_proposal` on an unknown proposal id. -/
theorem finalize_eq_notFound (pid : Nat)
    (hm : mapLookup s.proposals pid = none) :
    s.finalize_proposal pid = (s, Except.error "Proposal does not exist") := by
  unfold GovernancePallet.finalize_proposal
  rw [hm]

/-- `finalize_proposal` on a proposal that is no longer active. -/
theorem finalize_eq_notActive (pid : Nat) (p : Proposal A)
    (hm : mapLookup s.proposals pid = some p)
    (hs : p.status ≠ ProposalStatus.Active) :
    s.finalize_proposal pid = (s, Except.error "Proposal is not active") := by
  unfold GovernancePallet.finalize_proposal
  simp only [hm]
  rw [if_pos hs]

/-- `finalize_proposal` on an active proposal: the status becomes
`Approved` exactly when `yes_votes > no_votes`, and is returned. -/
theorem finalize_eq_ok (pid : Nat) (p : Proposal A)
    (hm : mapLookup s.proposals pid = some p)
    (hs : p.status = ProposalStatus.Active) :
    s.finalize_proposal pid =
      ({ s with
          proposals := mapInsert s.proposals pid
            { p with
                status := if p.no_votes < p.yes_votes then ProposalStatus.Approved
                          else ProposalStatus.Rejected } },
       Except.ok (if p.no_votes < p.yes_votes then ProposalStatus.Approved
                  else ProposalStatus.Rejected)) := by
  unfold GovernancePallet.finalize_proposal
  simp only [hm]
  rw [if_neg (by simp [hs])]

end OperationEquations

section ProposalIds

/-- `vote` never touches the id counter. -/
theorem vote_preserves_next (s : GovernancePallet A) (v : A) (pid : Nat)
    (c : Bool) : ((s.vote v pid c).1).next_proposal_id = s.next_proposal_id := by
  cases hm : mapLookup s.proposals pid with
  | none => rw [vote_eq_notFound s v pid c hm]
  | some p =>
    by_cases hs : p.status = ProposalStatus.Active
    · cases hv : mapLookup s.votes (v, pid) with
      | none => rw [vote_eq_ok s v pid c p hm hs hv]
      | some b => rw [vote_eq_alreadyVoted s v pid c p hm hs (by simp [hv])]
    · rw [vote_eq_notActive s v pid c p hm hs]

/-- `finalize_proposal` never touches the id counter. -/
theorem finalize_preserves_next (s : GovernancePallet A) (pid : Nat) :
    ((s.finalize_proposal pid).1).next_proposal_id = s.next_proposal_id := by
  cases hm : mapLookup s.proposals pid with
  | none => rw [finalize_eq_notFound s pid hm]
  | some p =>
    by_cases hs : p.status = ProposalStatus.Active
    · rw [finalize_eq_ok s pid p hm hs]
    · rw [finalize_eq_notActive s pid p hm hs]

/-- From any start state, the returned ids count up from the current
counter value. -/
theorem runCreateIds_eq_range' (ops : List (Op A)) :
    ∀ s : GovernancePallet A,
      runCreateIds s ops = List.range' s.next_proposal_id (numCreates ops) := by
  induction ops with
  | nil => intro s; rfl
  | cons op ops ih =>
    intro s
    cases op with
    | create c d =>
      have hnext : (applyOp s (Op.create c d)).next_proposal_id =
          s.next_proposal_id + 1 := by
        simp [applyOp, create_proposal_eq]
      simp only [runCreateIds, numCreates, List.countP_cons]
      rw [ih (applyOp s (Op.create c d)), hnext]
      simp [List.range'_succ, numCreates, create_proposal_eq]
    | castVote v pid b =>
      simp only [runCreateIds, numCreates, List.countP_cons]
      rw [ih (applyOp s (Op.castVote v pid b))]
      simp [applyOp, vote_preserves_next, numCreates]
    | finalize pid =>
      simp only [runCreateIds, numCreates, List.countP_cons]
      rw [ih (applyOp s (Op.finalize pid))]
      simp [applyOp, finalize_preserves_next, numCreates]

end ProposalIds

/-- C3: within one ledger instance the k-th `create_proposal` call
returns id k-1: the returned id sequence is `0, 1, 2, …`, so ids are
strictly increasing, unique, and never reused. -/
theorem create_ids_sequential (ops : List (Op A)) :
    runCreateIds (GovernancePallet.new A) ops = List.range (numCreates ops) ∧
    (runCreateIds (GovernancePallet.new A) ops).Nodup ∧
    ∀ k : Nat, k < numCreates ops →
      (runCreateIds (GovernancePallet.new A) ops)[k]? = some k := by
  have h : runCreateIds (GovernancePallet.new A) ops =
      List.range (numCreates ops) := by
    rw [List.range_eq_range']
    exact runCreateIds_eq_range' ops (GovernancePallet.new A)
  refine ⟨h, h ▸ List.nodup_range _, fun k hk => ?_⟩
  rw [h]
  exact List.getElem?_range hk

/-- Witness for C3: two creates return ids 0 and 1, and the second id is
read back from position 1. -/
theorem create_ids_sequential_witness :
    runCreateIds (GovernancePallet.new Nat) [Op.create 1 "a", Op.create 2 "b"] =
      List.range (numCreates ([Op.create 1 "a", Op.create 2 "b"] : List (Op Nat))) ∧
    (runCreateIds (GovernancePallet.new Nat) [Op.create 1 "a", Op.create 2 "b"])[1]? =
      some 1 :=
  ⟨(create_ids_sequential [Op.create 1 "a", Op.create 2 "b"]).1,
   (create_ids_sequential [Op.create 1 "a", Op.create 2 "b"]).2.2 1 (by decide)⟩

/-- C1: on a proposal that is `Active` at call time, `finalize_proposal`
sets the status to `Approved` when `yes_votes > no_votes` and to
`Rejected` otherwise (ties included), returns the new status, and the
whole result is determined by the looked-up proposal — in particular the
outcome is a pure function of `(yes_votes, no_votes)` at call time. -/
theorem finalize_decides_by_tally (s : GovernancePallet A) (pid : Nat)
    (p : Proposal A) (hm : mapLookup s.proposals pid = some p)
    (hs : p.status = ProposalStatus.Active) :
    s.finalize_proposal pid =
      ({ s with
          proposals := mapInsert s.proposals pid
            { p with
                status := if p.no_votes < p.yes_votes then ProposalStatus.Approved
                          else ProposalStatus.Rejected } },
       Except.ok (if p.no_votes < p.yes_votes then ProposalStatus.Approved
                  else ProposalStatus.Rejected)) :=
  finalize_eq_ok s pid p hm hs

/-- Witness for C1: a fresh proposal holds a 0–0 tie, and finalizing it
yields `Rejected`. -/
theorem finalize_decides_by_tally_witness :
    ((GovernancePallet.new Nat).create_proposal 7 "inc").1.finalize_proposal 0 =
      (⟨[(0, ⟨"inc", 0, 0, ProposalStatus.Rejected, 7⟩)], [], 1⟩,
       Except.ok ProposalStatus.Rejected) :=
  (finalize_decides_by_tally (((GovernancePallet.new Nat).create_proposal 7 "inc").1)
    0 ⟨"inc", 0, 0, ProposalStatus.Active, 7⟩ rfl rfl).trans rfl

/-- C2: `vote` checks existence first, then active status, then the
duplicate-vote record, and on success inserts the record and bumps the
tally selected by the choice. -/
theorem vote_check_order_and_effect (s : GovernancePallet A) (v : A)
    (pid : Nat) (c : Bool) :
    (mapLookup s.proposals pid = none →
      s.vote v pid c = (s, Except.error "Proposal does not exist")) ∧
    (∀ p : Proposal A, mapLookup s.proposals pid = some p →
      p.status ≠ ProposalStatus.Active →
      s.vote v pid c = (s, Except.error "Proposal is not active")) ∧
    (∀ p : Proposal A, mapLookup s.proposals pid = some p →
      p.status = ProposalStatus.Active →
      (mapLookup s.votes (v, pid)).isSome →
      s.vote v pid c = (s, Except.error "Voter has already voted")) ∧
    (∀ p : Proposal A, mapLookup s.proposals pid = some p →
      p.status = ProposalStatus.Active →
      mapLookup s.votes (v, pid) = none →
      s.vote v pid c =
        ({ s with
            votes := mapInsert s.votes (v, pid) c
            proposals := mapInsert s.proposals pid
              (if c then { p with yes_votes := p.yes_votes + 1 }
               else { p with no_votes := p.no_votes + 1 }) },
         Except.ok ())) :=
  ⟨fun hm => vote_eq_notFound s v pid c hm,
   fun p hm hs => vote_eq_notActive s v pid c p hm hs,
   fun p hm hs hv => vote_eq_alreadyVoted s v pid c p hm hs hv,
   fun p hm hs hv => vote_eq_ok s v pid c p hm hs hv⟩

/-- Witness for C2: a vote on the empty ledger reports the not-found
error, and a first yes-vote on a fresh proposal succeeds and bumps
`yes_votes` to 1. -/
theorem vote_check_order_and_effect_witness :
    (GovernancePallet.new Nat).vote 1 0 true =
      (GovernancePallet.new Nat, Except.error "Proposal does not exist") ∧
    ((GovernancePallet.new Nat).create_proposal 7 "inc").1.vote 1 0 true =
      (⟨[(0, ⟨"inc", 1, 0, ProposalStatus.Active, 7⟩)], [((1, 0), true)], 1⟩,
       Except.ok ()) :=
  ⟨(vote_check_order_and_effect (GovernancePallet.new Nat) 1 0 true).1 rfl,
   ((vote_check_order_and_effect (((GovernancePallet.new Nat).create_proposal 7 "inc").1)
       1 0 true).2.2.2 ⟨"inc", 0, 0, ProposalStatus.Active, 7⟩ rfl rfl rfl).trans rfl⟩

/-- C6: finalizing an active proposal succeeds with the decided status,
and immediately finalizing the same id again fails with the not-active
error instead of repeating the result. -/
theorem finalize_twice_second_fails (s : GovernancePallet A) (pid : Nat)
    (p : Proposal A) (hm : mapLookup s.proposals pid = some p)
    (hs : p.status = ProposalStatus.Active) :
    (s.finalize_proposal pid).2 =
      Except.ok (if p.no_votes < p.yes_votes then ProposalStatus.Approved
                 else ProposalStatus.Rejected) ∧
    (s.finalize_proposal pid).1.finalize_proposal pid =
      ((s.finalize_proposal pid).1, Except.error "Proposal is not active") := by
  have h1 := finalize_eq_ok s pid p hm hs
  refine ⟨by rw [h1], ?_⟩
  apply finalize_eq_notActive _ pid
    { p with
        status := if p.no_votes < p.yes_votes then ProposalStatus.Approved
                  else ProposalStatus.Rejected }
  · rw [h1]
    simp [mapLookup_mapInsert]
  · by_cases ht : p.no_votes < p.yes_votes <;> simp [ht]

/-- Witness for C6: create one proposal, finalize it twice; the first
call returns `Rejected`, the second the not-active error. -/
theorem finalize_twice_second_fails_witness :
    (((GovernancePallet.new Nat).create_proposal 7 "inc").1.finalize_proposal 0).2 =
      Except.ok ProposalStatus.Rejected ∧
    ((((GovernancePallet.new Nat).create_proposal 7 "inc").1.finalize_proposal 0).1.finalize_proposal
        0).2 =
      Except.error "Proposal is not active" := by
  have h := finalize_twice_second_fails
    (((GovernancePallet.new Nat).create_proposal 7 "inc").1) 0
    ⟨"inc", 0, 0, ProposalStatus.Active, 7⟩ rfl rfl
  exact ⟨h.1.trans rfl, by rw [h.2]⟩

/-- C7: `create_proposal` never fails, for any creator and description,
and the inserted proposal has zero tallies and `Active` status. -/
theorem create_always_succeeds (s : GovernancePallet A) (c : A) (d : String) :
    (s.create_proposal c d).2 = Except.ok s.next_proposal_id ∧
    mapLookup (s.create_proposal c d).1.proposals s.next_proposal_id =
      some { description := d
             yes_votes := 0
             no_votes := 0
             status := ProposalStatus.Active
             creator := c } := by
  rw [create_proposal_eq]
  exact ⟨rfl, by simp [mapLookup_mapInsert]⟩

/-- C8: on an id with no proposal entry, `vote`, `finalize_proposal` and
`get_proposal_details` all fail with the not-found error, while
`get_proposal` returns `none` rather than an error. -/
theorem unknown_id_behaviour (s : GovernancePallet A) (pid : Nat)
    (hm : mapLookup s.proposals pid = none) (v : A) (c : Bool) :
    s.vote v pid c = (s, Except.error "Proposal does not exist") ∧
    s.finalize_proposal pid = (s, Except.error "Proposal does not exist") ∧
    s.get_proposal_details pid = Except.error "Proposal does not exist" ∧
    s.get_proposal pid = none :=
  ⟨vote_eq_notFound s v pid c hm,
   finalize_eq_notFound s pid hm,
   by unfold GovernancePallet.get_proposal_details; rw [hm],
   hm⟩

/-- Witness for C8: id 9999 on the empty ledger. -/
theorem unknown_id_behaviour_witness :
    (GovernancePallet.new Nat).vote 1 9999 true =
      (GovernancePallet.new Nat, Except.error "Proposal does not exist") ∧
    (GovernancePallet.new Nat).finalize_proposal 9999 =
      (GovernancePallet.new Nat, Except.error "Proposal does not exist") ∧
    (GovernancePallet.new Nat).get_proposal_details 9999 =
      Except.error "Proposal does not exist" ∧
    (GovernancePallet.new Nat).get_proposal 9999 = none :=
  unknown_id_behaviour (GovernancePallet.new Nat) 9999 rfl 1 true

/-- C9: an operation that reports an error leaves the whole state
untouched, and `create_proposal` never reports one. -/
theorem errors_leave_state_unchanged (s : GovernancePallet A) (v : A)
    (pid pid' : Nat) (c : Bool) (cr : A) (d : String) :
    (∀ e, (s.vote v pid c).2 = Except.error e → (s.vote v pid c).1 = s) ∧
    (∀ e, (s.finalize_proposal pid').2 = Except.error e →
      (s.finalize_proposal pid').1 = s) ∧
    (∀ e, (s.create_proposal cr d).2 ≠ Except.error e) := by
  refine ⟨?_, ?_, ?_⟩
  · intro e he
    cases hm : mapLookup s.proposals pid with
    | none => rw [vote_eq_notFound s v pid c hm]
    | some p =>
      by_cases hs : p.status = ProposalStatus.Active
      · cases hv : mapLookup s.votes (v, pid) with
        | none =>
          rw [vote_eq_ok s v pid c p hm hs hv] at he
          simp at he
        | some b =>
          rw [vote_eq_alreadyVoted s v pid c p hm hs (by simp [hv])]
      · rw [vote_eq_notActive s v pid c p hm hs]
  · intro e he
    cases hm : mapLookup s.proposals pid' with
    | none => rw [finalize_eq_notFound s pid' hm]
    | some p =>
      by_cases hs : p.status = ProposalStatus.Active
      · rw [finalize_eq_ok s pid' p hm hs] at he
        simp at he
      · rw [finalize_eq_notActive s pid' p hm hs]
  · intro e
    rw [create_proposal_eq]
    simp

section InvariantMachinery

/-- If no record points at `pid`, both tallies for `pid` count zero. -/
theorem countVotesFor_eq_zero {B : Type} (votes : List ((B × Nat) × Bool))
    (pid : Nat) (b : Bool) (h : ∀ kv ∈ votes, kv.1.2 ≠ pid) :
    countVotesFor votes pid b = 0 :=
  List.countP_eq_zero.mpr fun kv hkv => by simp [h kv hkv]

/-- Tally of a one-record extension of the votes map. -/
theorem countVotesFor_cons {B : Type} (kv : (B × Nat) × Bool)
    (votes : List ((B × Nat) × Bool)) (pid : Nat) (b : Bool) :
    countVotesFor (kv :: votes) pid b =
      countVotesFor votes pid b + (if kv.1.2 = pid ∧ kv.2 = b then 1 else 0) := by
  simp [countVotesFor, List.countP_cons]

/-- The yes-tally and no-tally of a proposal partition its records. -/
theorem countVotesFor_partition {B : Type} (votes : List ((B × Nat) × Bool))
    (pid : Nat) :
    countVotesFor votes pid true + countVotesFor votes pid false =
      countVotesOn votes pid := by
  induction votes with
  | nil => rfl
  | cons kv rest ih =>
    have hOn : countVotesOn (kv :: rest) pid =
        countVotesOn rest pid + (if kv.1.2 = pid then 1 else 0) := by
      simp [countVotesOn, List.countP_cons]
    rw [countVotesFor_cons, countVotesFor_cons, hOn, ← ih]
    by_cases hp : kv.1.2 = pid
    · cases hc : kv.2 <;> simp [hp, hc] <;> omega
    · simp [hp]

/-- The fresh ledger satisfies the invariant. -/
theorem Inv_new : Inv (GovernancePallet.new A) := by
  refine ⟨?_, ?_, ?_, ?_⟩ <;> simp [GovernancePallet.new, mapLookup, Inv]

/-- Every operation preserves the invariant. -/
theorem Inv_applyOp (s : GovernancePallet A) (op : Op A) (h : Inv s) :
    Inv (applyOp s op) := by
  obtain ⟨h1, h2, h3, h4⟩ := h
  cases op with
  | create c d =>
    have hsx : applyOp s (Op.create c d) =
        { s with
            next_proposal_id := s.next_proposal_id + 1
            proposals := mapInsert s.proposals s.next_proposal_id
              { description := d
                yes_votes := 0
                no_votes := 0
                status := ProposalStatus.Active
                creator := c } } := by
      simp [applyOp, create_proposal_eq]
    rw [hsx]
    refine ⟨?_, ?_, h3, ?_⟩
    · intro pid p hp
      dsimp only at hp ⊢
      rw [mapLookup_mapInsert] at hp
      by_cases hpid : pid = s.next_proposal_id
      · omega
      · rw [if_neg hpid] at hp
        have := h1 pid p hp
        omega
    · intro kv hkv
      dsimp only at hkv ⊢
      have := h2 kv hkv
      omega
    · intro pid p hp
      dsimp only at hp ⊢
      rw [mapLookup_mapInsert] at hp
      by_cases hpid : pid = s.next_proposal_id
      · rw [if_pos hpid] at hp
        have hz : ∀ kv ∈ s.votes, kv.1.2 ≠ pid := by
          intro kv hkv
          have := h2 kv hkv
          omega
        injection hp with hp
        rw [← hp]
        exact ⟨(countVotesFor_eq_zero s.votes pid true hz).symm,
               (countVotesFor_eq_zero s.votes pid false hz).symm⟩
      · rw [if_neg hpid] at hp
        exact h4 pid p hp
  | castVote v pid c =>
    cases hm : mapLookup s.proposals pid with
    | none =>
      have hsx : applyOp s (Op.castVote v pid c) = s := by
        simp [applyOp, vote_eq_notFound s v pid c hm]
      rw [hsx]
      exact ⟨h1, h2, h3, h4⟩
    | some p =>
      by_cases hs : p.status = ProposalStatus.Active
      · cases hv : mapLookup s.votes (v, pid) with
        | some b =>
          have hsx : applyOp s (Op.castVote v pid c) = s := by
            simp [applyOp, vote_eq_alreadyVoted s v pid c p hm hs (by simp [hv])]
          rw [hsx]
          exact ⟨h1, h2, h3, h4⟩
        | none =>
          have hpidlt : pid < s.next_proposal_id := h1 pid p hm
          have hsx : applyOp s (Op.castVote v pid c) =
              { s with
                  votes := ((v, pid), c) :: s.votes
                  proposals := mapInsert s.proposals pid
                    (if c then { p with yes_votes := p.yes_votes + 1 }
                     else { p with no_votes := p.no_votes + 1 }) } := by
            simp [applyOp, vote_eq_ok s v pid c p hm hs hv,
              mapInsert_of_not_mem s.votes (v, pid) c hv]
          rw [hsx]
          refine ⟨?_, ?_, ?_, ?_⟩
          · intro pid' q hq
            dsimp only at hq ⊢
            rw [mapLookup_mapInsert] at hq
            by_cases hpid : pid' = pid
            · omega
            · rw [if_neg hpid] at hq
              exact h1 pid' q hq
          · intro kv hkv
            dsimp only at hkv ⊢
            rcases List.mem_cons.mp hkv with rfl | hkv
            · exact hpidlt
            · exact h2 kv hkv
          · dsimp only
            rw [List.map_cons, List.nodup_cons]
            refine ⟨?_, h3⟩
            intro hmem
            rcases List.mem_map.mp hmem with ⟨kv, hkv, heq⟩
            exact (mapLookup_eq_none s.votes (v, pid)).mp hv kv hkv heq.symm
          · intro pid' q hq
            dsimp only at hq ⊢
            rw [mapLookup_mapInsert] at hq
            by_cases hpid : pid' = pid
            · subst hpid
              rw [if_pos rfl] at hq
              injection hq with hq
              obtain ⟨hy, hn⟩ := h4 pid' p hm
              rw [← hq]
              cases c with
              | true =>
                refine ⟨?_, ?_⟩ <;>
                  simp [countVotesFor_cons, hy, hn]
              | false =>
                refine ⟨?_, ?_⟩ <;>
                  simp [countVotesFor_cons, hy, hn]
            · rw [if_neg hpid] at hq
              obtain ⟨hy, hn⟩ := h4 pid' q hq
              have hne : ¬ (pid = pid') := fun hc => hpid hc.symm
              rw [countVotesFor_cons, countVotesFor_cons]
              simp [hy, hn, hne]
      · have hsx : applyOp s (Op.castVote v pid c) = s := by
          simp [applyOp, vote_eq_notActive s v pid c p hm hs]
        rw [hsx]
        exact ⟨h1, h2, h3, h4⟩
  | finalize pid =>
    cases hm : mapLookup s.proposals pid with
    | none =>
      have hsx : applyOp s (Op.finalize pid) = s := by
        simp [applyOp, finalize_eq_notFound s pid hm]
      rw [hsx]
      exact ⟨h1, h2, h3, h4⟩
    | some p =>
      by_cases hs : p.status = ProposalStatus.Active
      · have hsx : applyOp s (Op.finalize pid) =
            { s with
                proposals := mapInsert s.proposals pid
                  { p with
                      status := if p.no_votes < p.yes_votes then ProposalStatus.Approved
                                else ProposalStatus.Rejected } } := by
          simp [applyOp, finalize_eq_ok s pid p hm hs]
        rw [hsx]
        refine ⟨?_, h2, h3, ?_⟩
        · intro pid' q hq
          dsimp only at hq ⊢
          rw [mapLookup_mapInsert] at hq
          by_cases hpid : pid' = pid
          · have := h1 pid p hm
            omega
          · rw [if_neg hpid] at hq
            exact h1 pid' q hq
        · intro pid' q hq
          dsimp only at hq ⊢
          rw [mapLookup_mapInsert] at hq
          by_cases hpid : pid' = pid
          · subst hpid
            rw [if_pos rfl] at hq
            injection hq with hq
            obtain ⟨hy, hn⟩ := h4 pid' p hm
            rw [← hq]
            exact ⟨hy, hn⟩
          · rw [if_neg hpid] at hq
            exact h4 pid' q hq
      · have hsx : applyOp s (Op.finalize pid) = s := by
          simp [applyOp, finalize_eq_notActive s pid p hm hs]
        rw [hsx]
        exact ⟨h1, h2, h3, h4⟩

/-- Running any sequence preserves the invariant. -/
theorem Inv_run (ops : List (Op A)) :
    ∀ s : GovernancePallet A, Inv s → Inv (run s ops) := by
  induction ops with
  | nil => intro s h; exact h
  | cons op ops ih => intro s h; exact ih (applyOp s op) (Inv_applyOp s op h)

/-- Every reachable state satisfies the invariant. -/
theorem Reachable_inv (s : GovernancePallet A) (h : Reachable s) : Inv s := by
  obtain ⟨ops, rfl⟩ := h
  exact Inv_run ops (GovernancePallet.new A) Inv_new

end InvariantMachinery

/-- C5: in a reachable state, one step changes a proposal's status only
from `Active` to `Approved` or `Rejected`; a proposal that is no longer
`Active` is left entirely unchanged (status and tallies), and voting on
it fails with the not-active error. -/
theorem status_transitions_one_way (s : GovernancePallet A) (hr : Reachable s)
    (op : Op A) (pid : Nat) (p : Proposal A)
    (hm : mapLookup s.proposals pid = some p) :
    (∃ p' : Proposal A, mapLookup (applyOp s op).proposals pid = some p' ∧
      (p'.status = p.status ∨
        (p.status = ProposalStatus.Active ∧
          (p'.status = ProposalStatus.Approved ∨
           p'.status = ProposalStatus.Rejected)))) ∧
    (p.status ≠ ProposalStatus.Active →
      mapLookup (applyOp s op).proposals pid = some p) ∧
    ∀ (v : A) (c : Bool), p.status ≠ ProposalStatus.Active →
      s.vote v pid c = (s, Except.error "Proposal is not active") := by
  have hinv := Reachable_inv s hr
  have hlt : pid < s.next_proposal_id := hinv.1 pid p hm
  have key : ∃ p' : Proposal A, mapLookup (applyOp s op).proposals pid = some p' ∧
      (p' = p ∨ (p.status = ProposalStatus.Active ∧
        (p'.status = ProposalStatus.Active ∨
         p'.status = ProposalStatus.Approved ∨
         p'.status = ProposalStatus.Rejected))) := by
    cases op with
    | create c d =>
      refine ⟨p, ?_, Or.inl rfl⟩
      have hsx : applyOp s (Op.create c d) =
          { s with
              next_proposal_id := s.next_proposal_id + 1
              proposals := mapInsert s.proposals s.next_proposal_id
                { description := d
                  yes_votes := 0
                  no_votes := 0
                  status := ProposalStatus.Active
                  creator := c } } := by
        simp [applyOp, create_proposal_eq]
      rw [hsx]
      dsimp only
      rw [mapLookup_mapInsert, if_neg (by omega)]
      exact hm
    | castVote v' pid' c' =>
      cases hm' : mapLookup s.proposals pid' with
      | none =>
        have hsx : applyOp s (Op.castVote v' pid' c') = s := by
          simp [applyOp, vote_eq_notFound s v' pid' c' hm']
        rw [hsx]
        exact ⟨p, hm, Or.inl rfl⟩
      | some q =>
        by_cases hqs : q.status = ProposalStatus.Active
        · cases hv : mapLookup s.votes (v', pid') with
          | some b =>
            have hsx : applyOp s (Op.castVote v' pid' c') = s := by
              simp [applyOp, vote_eq_alreadyVoted s v' pid' c' q hm' hqs (by simp [hv])]
            rw [hsx]
            exact ⟨p, hm, Or.inl rfl⟩
          | none =>
            have hsx : applyOp s (Op.castVote v' pid' c') =
                { s with
                    votes := mapInsert s.votes (v', pid') c'
                    proposals := mapInsert s.proposals pid'
                      (if c' then { q with yes_votes := q.yes_votes + 1 }
                       else { q with no_votes := q.no_votes + 1 }) } := by
              simp [applyOp, vote_eq_ok s v' pid' c' q hm' hqs hv]
            rw [hsx]
            dsimp only
            rw [mapLookup_mapInsert]
            by_cases hpid : pid = pid'
            · subst hpid
              have hpq : p = q := by
                have := hm.symm.trans hm'
                injection this
              rw [if_pos rfl]
              refine ⟨_, rfl, Or.inr ⟨by rw [hpq]; exact hqs, Or.inl ?_⟩⟩
              cases c' <;> simp [hqs]
            · rw [if_neg hpid]
              exact ⟨p, hm, Or.inl rfl⟩
        · have hsx : applyOp s (Op.castVote v' pid' c') = s := by
            simp [applyOp, vote_eq_notActive s v' pid' c' q hm' hqs]
          rw [hsx]
          exact ⟨p, hm, Or.inl rfl⟩
    | finalize pid' =>
      cases hm' : mapLookup s.proposals pid' with
      | none =>
        have hsx : applyOp s (Op.finalize pid') = s := by
          simp [applyOp, finalize_eq_notFound s pid' hm']
        rw [hsx]
        exact ⟨p, hm, Or.inl rfl⟩
      | some q =>
        by_cases hqs : q.status = ProposalStatus.Active
        · have hsx : applyOp s (Op.finalize pid') =
              { s with
                  proposals := mapInsert s.proposals pid'
                    { q with
                        status := if q.no_votes < q.yes_votes then ProposalStatus.Approved
                                  else ProposalStatus.Rejected } } := by
            simp [applyOp, finalize_eq_ok s pid' q hm' hqs]
          rw [hsx]
          dsimp only
          rw [mapLookup_mapInsert]
          by_cases hpid : pid = pid'
          · subst hpid
            have hpq : p = q := by
              have := hm.symm.trans hm'
              injection this
            rw [if_pos rfl]
            refine ⟨_, rfl, Or.inr ⟨by rw [hpq]; exact hqs, Or.inr ?_⟩⟩
            by_cases ht : q.no_votes < q.yes_votes <;> simp [ht]
          · rw [if_neg hpid]
            exact ⟨p, hm, Or.inl rfl⟩
        · have hsx : applyOp s (Op.finalize pid') = s := by
            simp [applyOp, finalize_eq_notActive s pid' q hm' hqs]
          rw [hsx]
          exact ⟨p, hm, Or.inl rfl⟩
  obtain ⟨p', hp', hcase⟩ := key
  refine ⟨⟨p', hp', ?_⟩, ?_, fun v c hs => vote_eq_notActive s v pid c p hm hs⟩
  · rcases hcase with rfl | ⟨hact, hst⟩
    · exact Or.inl rfl
    · rcases hst with h' | h' | h'
      · exact Or.inl (h'.trans hact.symm)
      · exact Or.inr ⟨hact, Or.inl h'⟩
      · exact Or.inr ⟨hact, Or.inr h'⟩
  · intro hs
    rcases hcase with rfl | ⟨hact, _⟩
    · exact hp'
    · exact absurd hact hs

/-- Witness for C5: finalizing a fresh proposal moves its status from
`Active` to a terminal value. -/
theorem status_transitions_one_way_witness :
    ∃ p' : Proposal Nat,
      mapLookup
          (applyOp (run (GovernancePallet.new Nat) [Op.create 7 "inc"])
            (Op.finalize 0)).proposals 0 = some p' ∧
      (p'.status = (⟨"inc", 0, 0, ProposalStatus.Active, 7⟩ : Proposal Nat).status ∨
        ((⟨"inc", 0, 0, ProposalStatus.Active, 7⟩ : Proposal Nat).status =
            ProposalStatus.Active ∧
          (p'.status = ProposalStatus.Approved ∨
           p'.status = ProposalStatus.Rejected))) :=
  (status_transitions_one_way (run (GovernancePallet.new Nat) [Op.create 7 "inc"])
    ⟨[Op.create 7 "inc"], rfl⟩ (Op.finalize 0) 0
    ⟨"inc", 0, 0, ProposalStatus.Active, 7⟩ rfl).1

section VoteRecordPersistence

/-- No operation removes or overwrites an existing vote record. -/
theorem votesLookup_applyOp (s : GovernancePallet A) (op : Op A)
    (key : A × Nat) (b : Bool) (h : mapLookup s.votes key = some b) :
    mapLookup (applyOp s op).votes key = some b := by
  cases op with
  | create c d =>
    exact h
  | castVote v pid c =>
    cases hm : mapLookup s.proposals pid with
    | none =>
      have hsx : applyOp s (Op.castVote v pid c) = s := by
        simp [applyOp, vote_eq_notFound s v pid c hm]
      rw [hsx]
      exact h
    | some p =>
      by_cases hs : p.status = ProposalStatus.Active
      · cases hv : mapLookup s.votes (v, pid) with
        | some b' =>
          have hsx : applyOp s (Op.castVote v pid c) = s := by
            simp [applyOp, vote_eq_alreadyVoted s v pid c p hm hs (by simp [hv])]
          rw [hsx]
          exact h
        | none =>
          have hks : key ≠ (v, pid) := by
            intro he
            rw [he, hv] at h
            exact absurd h (by simp)
          have hsx : applyOp s (Op.castVote v pid c) =
              { s with
                  votes := mapInsert s.votes (v, pid) c
                  proposals := mapInsert s.proposals pid
                    (if c then { p with yes_votes := p.yes_votes + 1 }
                     else { p with no_votes := p.no_votes + 1 }) } := by
            simp [applyOp, vote_eq_ok s v pid c p hm hs hv]
          rw [hsx]
          dsimp only
          rw [mapLookup_mapInsert, if_neg hks]
          exact h
      · have hsx : applyOp s (Op.castVote v pid c) = s := by
          simp [applyOp, vote_eq_notActive s v pid c p hm hs]
        rw [hsx]
        exact h
  | finalize pid =>
    cases hm : mapLookup s.proposals pid with
    | none =>
      have hsx : applyOp s (Op.finalize pid) = s := by
        simp [applyOp, finalize_eq_notFound s pid hm]
      rw [hsx]
      exact h
    | some p =>
      by_cases hs : p.status = ProposalStatus.Active
      · have hsx : applyOp s (Op.finalize pid) =
            { s with
                proposals := mapInsert s.proposals pid
                  { p with
                      status := if p.no_votes < p.yes_votes then ProposalStatus.Approved
                                else ProposalStatus.Rejected } } := by
          simp [applyOp, finalize_eq_ok s pid p hm hs]
        rw [hsx]
        exact h
      · have hsx : applyOp s (Op.finalize pid) = s := by
          simp [applyOp, finalize_eq_notActive s pid p hm hs]
        rw [hsx]
        exact h

/-- A vote record survives any operation sequence unchanged. -/
theorem votesLookup_run (ops : List (Op A)) :
    ∀ (s : GovernancePallet A) (key : A × Nat) (b : Bool),
      mapLookup s.votes key = some b →
      mapLookup (run s ops).votes key = some b := by
  induction ops with
  | nil => intro s key b h; exact h
  | cons op ops ih =>
    intro s key b h
    exact ih (applyOp s op) key b (votesLookup_applyOp s op key b h)

/-- A successful `vote` leaves the voter's record in the votes map. -/
theorem vote_ok_record (s : GovernancePallet A) (v : A) (pid : Nat) (c : Bool)
    (h : (s.vote v pid c).2 = Except.ok ()) :
    mapLookup ((s.vote v pid c).1).votes (v, pid) = some c := by
  cases hm : mapLookup s.proposals pid with
  | none =>
    rw [vote_eq_notFound s v pid c hm] at h
    exact absurd h (by simp)
  | some p =>
    by_cases hs : p.status = ProposalStatus.Active
    · cases hv : mapLookup s.votes (v, pid) with
      | some b =>
        rw [vote_eq_alreadyVoted s v pid c p hm hs (by simp [hv])] at h
        exact absurd h (by simp)
      | none =>
        rw [vote_eq_ok s v pid c p hm hs hv]
        dsimp only
        rw [mapLookup_mapInsert, if_pos rfl]
    · rw [vote_eq_notActive s v pid c p hm hs] at h
      exact absurd h (by simp)

end VoteRecordPersistence

/-- C4 counterexample: a voter's second vote on the same proposal does
not always fail with the already-voted error — after the proposal is
finalized in between, the repeat vote fails with the not-active error
instead. -/
theorem second_vote_error_not_always_alreadyVoted :
    ((run (GovernancePallet.new Nat) [Op.create 7 "inc"]).vote 1 0 true).2 =
      Except.ok () ∧
    ((run (GovernancePallet.new Nat)
        [Op.create 7 "inc", Op.castVote 1 0 true, Op.finalize 0]).vote 1 0 true).2 =
      Except.error "Proposal is not active" ∧
    ((run (GovernancePallet.new Nat)
        [Op.create 7 "inc", Op.castVote 1 0 true, Op.finalize 0]).vote 1 0 true).2 ≠
      Except.error "Voter has already voted" := by
  refine ⟨rfl, rfl, fun hcontra => ?_⟩
  have h : (Except.error "Proposal is not active" : Except String Unit) =
      Except.error "Voter has already voted" := hcontra
  simp at h

/-- C4 (amended): in a reachable state vote keys are duplicate-free, a
vote record is never removed or overwritten by any later operations, and
after a successful `vote(v, p, _)` every later `vote(v, p, _)` call
fails — with the already-voted error whenever the proposal is still
`Active` at that call. -/
theorem vote_record_permanent (s : GovernancePallet A) (v : A) (pid : Nat)
    (b : Bool) :
    (Reachable s → (s.votes.map Prod.fst).Nodup) ∧
    (∀ (c : Bool) (ops : List (Op A)), mapLookup s.votes (v, pid) = some c →
      mapLookup (run s ops).votes (v, pid) = some c) ∧
    ((s.vote v pid b).2 = Except.ok () →
      ∀ (ops : List (Op A)) (c' : Bool),
        (∃ e, ((run ((s.vote v pid b).1) ops).vote v pid c').2 =
          Except.error e) ∧
        ∀ p' : Proposal A,
          mapLookup (run ((s.vote v pid b).1) ops).proposals pid = some p' →
          p'.status = ProposalStatus.Active →
          (run ((s.vote v pid b).1) ops).vote v pid c' =
            (run ((s.vote v pid b).1) ops,
             Except.error "Voter has already voted")) := by
  refine ⟨fun hr => (Reachable_inv s hr).2.2.1,
    fun c ops => votesLookup_run ops s (v, pid) c, ?_⟩
  intro hok ops c'
  have hrec := votesLookup_run ops ((s.vote v pid b).1) (v, pid) b
    (vote_ok_record s v pid b hok)
  constructor
  · cases hm : mapLookup (run ((s.vote v pid b).1) ops).proposals pid with
    | none =>
      exact ⟨"Proposal does not exist",
        by rw [vote_eq_notFound _ v pid c' hm]⟩
    | some q =>
      by_cases hqs : q.status = ProposalStatus.Active
      · exact ⟨"Voter has already voted",
          by rw [vote_eq_alreadyVoted _ v pid c' q hm hqs (by simp [hrec])]⟩
      · exact ⟨"Proposal is not active",
          by rw [vote_eq_notActive _ v pid c' q hm hqs]⟩
  · intro p' hm' hact
    exact vote_eq_alreadyVoted _ v pid c' p' hm' hact (by simp [hrec])

/-- Witness for C4: after voter 1 votes on proposal 0 and the proposal
is finalized, voter 1's repeat vote still fails. -/
theorem vote_record_permanent_witness :
    ∃ e, ((run (((run (GovernancePallet.new Nat) [Op.create 7 "inc"]).vote
        1 0 true).1) [Op.finalize 0]).vote 1 0 false).2 = Except.error e :=
  ((vote_record_permanent (run (GovernancePallet.new Nat) [Op.create 7 "inc"])
    1 0 true).2.2 rfl [Op.finalize 0] false).1

section VoteCounting

/-- Record count of a one-record extension of the votes map. -/
theorem countVotesOn_cons {B : Type} (kv : (B × Nat) × Bool)
    (votes : List ((B × Nat) × Bool)) (pid : Nat) :
    countVotesOn (kv :: votes) pid =
      countVotesOn votes pid + (if kv.1.2 = pid then 1 else 0) := by
  simp [countVotesOn, List.countP_cons]

/-- Each successful `vote` call on `pid` adds exactly one record on
`pid`, and nothing else changes the record count. -/
theorem countVotesOn_run (pid : Nat) (ops : List (Op A)) :
    ∀ s : GovernancePallet A,
      countVotesOn (run s ops).votes pid =
        countVotesOn s.votes pid + runVoteOks s pid ops := by
  induction ops with
  | nil => intro s; rfl
  | cons op ops ih =>
    intro s
    rw [run, ih (applyOp s op)]
    cases op with
    | create c d =>
      have hv : (applyOp s (Op.create c d)).votes = s.votes := rfl
      rw [hv]
      simp only [runVoteOks]
    | finalize pid' =>
      have hv : (applyOp s (Op.finalize pid')).votes = s.votes := by
        cases hm : mapLookup s.proposals pid' with
        | none => rw [show applyOp s (Op.finalize pid') = s
            from by simp [applyOp, finalize_eq_notFound s pid' hm]]
        | some p =>
          by_cases hs : p.status = ProposalStatus.Active
          · rw [show applyOp s (Op.finalize pid') =
                { s with
                    proposals := mapInsert s.proposals pid'
                      { p with
                          status := if p.no_votes < p.yes_votes then ProposalStatus.Approved
                                    else ProposalStatus.Rejected } }
              from by simp [applyOp, finalize_eq_ok s pid' p hm hs]]
          · rw [show applyOp s (Op.finalize pid') = s
              from by simp [applyOp, finalize_eq_notActive s pid' p hm hs]]
      rw [hv]
      simp only [runVoteOks]
    | castVote v pid' c =>
      cases hm : mapLookup s.proposals pid' with
      | none =>
        have hsx : applyOp s (Op.castVote v pid' c) = s := by
          simp [applyOp, vote_eq_notFound s v pid' c hm]
        simp only [runVoteOks, vote_eq_notFound s v pid' c hm]
        rw [hsx]
      | some p =>
        by_cases hs : p.status = ProposalStatus.Active
        · cases hv : mapLookup s.votes (v, pid') with
          | some b =>
            have hsx : applyOp s (Op.castVote v pid' c) = s := by
              simp [applyOp,
                vote_eq_alreadyVoted s v pid' c p hm hs (by simp [hv])]
            simp only [runVoteOks,
              vote_eq_alreadyVoted s v pid' c p hm hs (by simp [hv])]
            rw [hsx]
          | none =>
            have hvx : (applyOp s (Op.castVote v pid' c)).votes =
                ((v, pid'), c) :: s.votes := by
              rw [show applyOp s (Op.castVote v pid' c) =
                  { s with
                      votes := ((v, pid'), c) :: s.votes
                      proposals := mapInsert s.proposals pid'
                        (if c then { p with yes_votes := p.yes_votes + 1 }
                         else { p with no_votes := p.no_votes + 1 }) }
                from by simp [applyOp, vote_eq_ok s v pid' c p hm hs hv,
                  mapInsert_of_not_mem s.votes (v, pid') c hv]]
            simp only [runVoteOks, vote_eq_ok s v pid' c p hm hs hv]
            rw [hvx, countVotesOn_cons]
            have hproj : (((v, pid'), c) : (A × Nat) × Bool).1.2 = pid' := rfl
            rw [hproj]
            by_cases hpid : pid' = pid
            · rw [if_pos hpid]
              omega
            · rw [if_neg hpid]
              omega
        · have hsx : applyOp s (Op.castVote v pid' c) = s := by
            simp [applyOp, vote_eq_notActive s v pid' c p hm hs]
          simp only [runVoteOks, vote_eq_notActive s v pid' c p hm hs]
          rw [hsx]

end VoteCounting

/-- C10: in every reachable state, each proposal's `yes_votes` counts its
`true` vote records, `no_votes` counts its `false` records, and their sum
is the number of successful `vote` calls on that proposal. -/
theorem tallies_match_vote_records (ops : List (Op A)) (pid : Nat)
    (p : Proposal A)
    (hm : mapLookup (run (GovernancePallet.new A) ops).proposals pid = some p) :
    p.yes_votes = countVotesFor (run (GovernancePallet.new A) ops).votes pid true ∧
    p.no_votes = countVotesFor (run (GovernancePallet.new A) ops).votes pid false ∧
    p.yes_votes + p.no_votes = runVoteOks (GovernancePallet.new A) pid ops := by
  have hinv := Inv_run ops (GovernancePallet.new A) Inv_new
  obtain ⟨hy, hn⟩ := hinv.2.2.2 pid p hm
  refine ⟨hy, hn, ?_⟩
  rw [hy, hn, countVotesFor_partition,
    countVotesOn_run pid ops (GovernancePallet.new A)]
  have h0 : countVotesOn (GovernancePallet.new A).votes pid = 0 := rfl
  rw [h0]
  omega

/-- Witness for C10: with three successful votes (two yes, one no) the
stored tallies are 2 and 1 and their sum is the success count 3. -/
theorem tallies_match_vote_records_witness :
    (⟨"r", 2, 1, ProposalStatus.Active, 1⟩ : Proposal Nat).yes_votes =
      countVotesFor (run (GovernancePallet.new Nat)
        [Op.create 1 "r", Op.castVote 1 0 true, Op.castVote 2 0 true,
         Op.castVote 3 0 false]).votes 0 true ∧
    (⟨"r", 2, 1, ProposalStatus.Active, 1⟩ : Proposal Nat).no_votes =
      countVotesFor (run (GovernancePallet.new Nat)
        [Op.create 1 "r", Op.castVote 1 0 true, Op.castVote 2 0 true,
         Op.castVote 3 0 false]).votes 0 false ∧
    (⟨"r", 2, 1, ProposalStatus.Active, 1⟩ : Proposal Nat).yes_votes +
        (⟨"r", 2, 1, ProposalStatus.Active, 1⟩ : Proposal Nat).no_votes =
      runVoteOks (GovernancePallet.new Nat) 0
        [Op.create 1 "r", Op.castVote 1 0 true, Op.castVote 2 0 true,
         Op.castVote 3 0 false] :=
  tallies_match_vote_records
    [Op.create 1 "r", Op.castVote 1 0 true, Op.castVote 2 0 true,
     Op.castVote 3 0 false] 0 ⟨"r", 2, 1, ProposalStatus.Active, 1⟩ rfl

/-- Witness for C9: a failing vote on the empty ledger leaves it the
empty ledger. -/
theorem errors_leave_state_unchanged_witness :
    ((GovernancePallet.new Nat).vote 1 5 true).1 = GovernancePallet.new Nat :=
  (errors_leave_state_unchanged (GovernancePallet.new Nat) 1 5 5 true 2 "d").1
    "Proposal does not exist" rfl

end Governance
